import Mathlib

/-!
Verification development for the insight-relay pipeline: a paginated
fetcher, a JSON flattener, an attribute-table builder, a recency filter,
a message formatter, a chat notifier and a daily polling loop.

The Python sources (`get_thread_insights.py`, `slack_bot.py`) are embedded
shallowly: JSON values become an inductive type, pandas DataFrames become
a column-list/row-list structure, HTTP interactions become explicit
outcome values, and every fallible operation returns `Except`/`Option`.
All definitions are executable so that concrete scenarios evaluate by
`rfl`/`decide`.
-/

namespace SlackBotSpec

mutual

/-- JSON values as fetched from the source API.  Objects keep their fields
in insertion order (Python `dict` order); the mutual presentation keeps
all recursion structural, hence kernel-computable. -/
inductive JVal : Type where
  | jnull : JVal
  | jbool : Bool → JVal
  | jint : Int → JVal
  | jstr : String → JVal
  | jarr : JArr → JVal
  | jobj : JObj → JVal

inductive JArr : Type where
  | nil : JArr
  | cons : JVal → JArr → JArr

inductive JObj : Type where
  | nil : JObj
  | cons : String → JVal → JObj → JObj

end

/-- Build a `JObj` from a list of key/value pairs (notation helper). -/
def jo (l : List (String × JVal)) : JObj :=
  l.foldr (fun p acc => JObj.cons p.1 p.2 acc) JObj.nil

/-- Build a `JArr` from a list of values (notation helper). -/
def ja (l : List JVal) : JArr :=
  l.foldr JArr.cons JArr.nil

/-- Elements of a JSON array as a Lean list. -/
def JArr.toList : JArr → List JVal
  | .nil => []
  | .cons v tl => v :: tl.toList

/-- Python truthiness of a JSON value (`if not response_data.get("ok")`). -/
def truthy : JVal → Bool
  | .jnull => false
  | .jbool b => b
  | .jint n => n != 0
  | .jstr s => s ≠ ""
  | .jarr .nil => false
  | .jarr _ => true
  | .jobj .nil => false
  | .jobj _ => true

/-- `dict.get` on a JSON object: first binding of the key, if any. -/
def jlookup : JObj → String → Option JVal
  | .nil, _ => none
  | .cons k v tl, key => if k = key then some v else jlookup tl key

/-- Escape one character the way `json.dumps` quotes strings (quote and
backslash; the inputs exercised here are plain ASCII). -/
def escChar (c : Char) : String :=
  if c = '\\' then "\\\\" else if c = '"' then "\\\"" else String.singleton c

/-- `json.dumps` of a string literal. -/
def jstrDump (s : String) : String :=
  "\"" ++ String.join (s.data.map escChar) ++ "\""

mutual

/-- `json.dumps` with its default separators (`", "` and `": "`),
as used by `flatten_json` to serialize list values. -/
def jsonDumps : JVal → String
  | .jnull => "null"
  | .jbool true => "true"
  | .jbool false => "false"
  | .jint n => toString n
  | .jstr s => jstrDump s
  | .jarr a => "[" ++ dumpsArr a ++ "]"
  | .jobj o => "\x7b" ++ dumpsObj o ++ "\x7d"

def dumpsArr : JArr → String
  | .nil => ""
  | .cons v .nil => jsonDumps v
  | .cons v tl => jsonDumps v ++ ", " ++ dumpsArr tl

def dumpsObj : JObj → String
  | .nil => ""
  | .cons k v .nil => jstrDump k ++ ": " ++ jsonDumps v
  | .cons k v tl => jstrDump k ++ ": " ++ jsonDumps v ++ ", " ++ dumpsObj tl

end

/-- A cell of the attribute table: the scalars `flatten_json` can emit,
plus pandas-specific values — parsed timestamps (`tval`), `NaT` (`tnull`)
and `NaN` for keys absent from a row (`absent`). -/
inductive Cell : Type where
  | cnull : Cell
  | cbool : Bool → Cell
  | cint : Int → Cell
  | cstr : String → Cell
  | tval : Nat → Cell
  | tnull : Cell
  | absent : Cell
deriving DecidableEq, Repr

/-- Keys of an association list. -/
def keysOf (l : List (String × Cell)) : List String := l.map Prod.fst

/-- Python `dict` assignment `items[k] = v`: replace in place if the key
exists (keeping its position), otherwise append. -/
def dinsert : List (String × Cell) → String → Cell → List (String × Cell)
  | [], k, v => [(k, v)]
  | (k', v') :: tl, k, v =>
      if k' = k then (k', v) :: tl else (k', v') :: dinsert tl k v

/-- Python `dict.update`: insert every binding of `other` into `m`. -/
def dupdate (m other : List (String × Cell)) : List (String × Cell) :=
  other.foldl (fun acc p => dinsert acc p.1 p.2) m

/-- The segment of a string after its last separator character:
`s.split(sep)[-1] if sep in s else s` (when the separator is absent,
`split` yields the whole string, so the two cases agree).  Implemented by
a character fold because it must evaluate inside the kernel. -/
def lastSegment (sep : Char) (s : String) : String :=
  ⟨s.data.foldl (fun acc c => if c = sep then [] else acc ++ [c]) []⟩

/-- `clean_key = key.split(sep)[-1] if sep in key else key` for `sep = "_"`. -/
def cleanKey (k : String) : String :=
  lastSegment '_' k

/-- `new_key = f"{parent_key}{sep}{clean_key}" if parent_key else clean_key`. -/
def mkKey (parent k : String) : String :=
  if parent = "" then cleanKey k else parent ++ "_" ++ cleanKey k

mutual

/-- One step of `flatten_json`: process a single value sitting under the
already-built key `nk`, extending the accumulated dict `items`
(dicts recurse and are merged with `update`, lists are serialized by
`json.dumps`, scalars are stored as cells). -/
def flattenVal (nk : String) (items : List (String × Cell)) : JVal → List (String × Cell)
  | .jobj sub => dupdate items (flattenObj sub nk [])
  | .jarr a => dinsert items nk (.cstr (jsonDumps (.jarr a)))
  | .jnull => dinsert items nk .cnull
  | .jbool b => dinsert items nk (.cbool b)
  | .jint n => dinsert items nk (.cint n)
  | .jstr s => dinsert items nk (.cstr s)

/-- `flatten_json`'s loop over `nested_json.items()` with accumulator
`items` and current `parent_key`. -/
def flattenObj : JObj → String → List (String × Cell) → List (String × Cell)
  | .nil, _, items => items
  | .cons k v tl, parent, items =>
      flattenObj tl parent (flattenVal (mkKey parent k) items v)

end

/-- `flatten_json(nested_json)` with its default arguments. -/
def flatten_json (j : JObj) : List (String × Cell) :=
  flattenObj j "" []

-- sanity checks that the embedding computes by `rfl`
example : flatten_json (jo [("a", .jobj (jo [("x", .jint 1)])), ("b", .jint 2)]) =
    [("a_x", Cell.cint 1), ("b", Cell.cint 2)] := rfl

example : jsonDumps (.jarr (ja [.jint 1, .jint 2])) = "[1, 2]" := rfl

example : flatten_json (jo [("p", .jobj (jo [("a_x", .jint 1), ("b_x", .jint 2)]))]) =
    [("p_x", Cell.cint 2)] := rfl

/-- A pandas `DataFrame`: ordered column labels (duplicates are legal in
pandas and arise from the rename in `create_attribute_table`) and rows of
cells, one cell per column position. -/
structure DataFrame where
  cols : List String
  rows : List (List Cell)
deriving DecidableEq, Repr

/-- First binding of a key in a flattened record (`dict` lookup). -/
def lookupCell : List (String × Cell) → String → Option Cell
  | [], _ => none
  | (k, v) :: tl, key => if k = key then some v else lookupCell tl key

/-- Column labels of `pd.DataFrame(list_of_dicts)`: union of the dicts'
keys in order of first appearance. -/
def unionCols (flattened : List (List (String × Cell))) : List String :=
  flattened.foldl
    (fun acc d => d.foldl (fun a p => if a.contains p.1 then a else a ++ [p.1]) acc) []

/-- `create_attribute_table`: flatten every record, assemble the frame
(missing keys become `NaN`), then rename every column label to its last
underscore-separated segment (`col.split('_')[-1] if '_' in col else col`).
pandas keeps duplicate labels produced by this rename: no column is
dropped or merged. -/
def create_attribute_table (data : List JObj) : DataFrame :=
  match data with
  | [] => ⟨[], []⟩
  | _ =>
    let flattened := data.map flatten_json
    let cols := unionCols flattened
    let rows := flattened.map (fun d => cols.map (fun c => (lookupCell d c).getD .absent))
    ⟨cols.map (lastSegment '_'), rows⟩

example :
    create_attribute_table [jo [("a", .jobj (jo [("x", .jint 1)]))],
                            jo [("b", .jobj (jo [("x", .jint 2)]))]] =
      ⟨["x", "x"], [[.cint 1, .absent], [.absent, .cint 2]]⟩ := rfl

/-- Digits of a fixed-width numeric field. -/
def digitsToNat : List Char → Option Nat
  | [] => none
  | cs =>
    if cs.all Char.isDigit then
      some (cs.foldl (fun a c => a * 10 + (c.toNat - 48)) 0)
    else none

/-- `pd.to_datetime(_, format='ISO8601')` on the shapes this pipeline
produces: `YYYY-MM-DD`, optionally `THH:MM:SS`, optionally a fractional
part of up to nine digits, optionally a trailing `Z` UTC designator.
The result is a single Nat linearizing (year, month, day, hour, minute,
second, nanosecond) so that chronological order is numeric order. -/
def parseISO8601 (s : String) : Option Nat :=
  let cs := if s.data.getLast? = some 'Z' then s.data.dropLast else s.data
  match cs with
  | y1 :: y2 :: y3 :: y4 :: '-' :: m1 :: m2 :: '-' :: d1 :: d2 :: rest => do
    let y ← digitsToNat [y1, y2, y3, y4]
    let mo ← digitsToNat [m1, m2]
    let d ← digitsToNat [d1, d2]
    if 1 ≤ mo ∧ mo ≤ 12 ∧ 1 ≤ d ∧ d ≤ 31 then
      let hms ← match rest with
        | [] => some (0, 0, 0, 0)
        | 'T' :: h1 :: h2 :: ':' :: n1 :: n2 :: ':' :: s1 :: s2 :: rest2 => do
          let h ← digitsToNat [h1, h2]
          let mi ← digitsToNat [n1, n2]
          let sec ← digitsToNat [s1, s2]
          if h ≤ 23 ∧ mi ≤ 59 ∧ sec ≤ 59 then
            let ns ← match rest2 with
              | [] => some 0
              | '.' :: fs =>
                if fs.length ≤ 9 then
                  (digitsToNat fs).map (fun f => f * 10 ^ (9 - fs.length))
                else none
              | _ => none
            some (h, mi, sec, ns)
          else none
        | _ => none
      let (h, mi, sec, ns) := hms
      some ((((((y * 13 + mo) * 32 + d) * 24 + h) * 60 + mi) * 60 + sec) * 1000000000 + ns)
    else none
  | _ => none

example : parseISO8601 "2024-04-30T10:00:00Z" =
    some ((((((2024 * 13 + 4) * 32 + 30) * 24 + 10) * 60 + 0) * 60 + 0) * 1000000000 + 0) := rfl

example : parseISO8601 "not a timestamp" = none := rfl

example : (parseISO8601 "2024-04-30T09:00:00Z").getD 0 < (parseISO8601 "2024-04-30T10:00:00Z").getD 0 := by
  decide

/-- `pd.to_datetime` on a single cell: strings parse under the flexible
format, already-temporal values pass through, missing values become
`NaT`, and anything else (with an explicit `format=`) raises. -/
def convertCell : Cell → Option Cell
  | .cstr s => (parseISO8601 s).map .tval
  | .cnull => some .tnull
  | .tval t => some (.tval t)
  | .tnull => some .tnull
  | .absent => some .tnull
  | .cbool _ => none
  | .cint _ => none

/-- Is a cell already of datetime kind (`is_datetime64_any_dtype` holds of
a column exactly when every cell is)? -/
def cellIsDT : Cell → Bool
  | .tval _ => true
  | .tnull => true
  | _ => false

/-- Convert a whole column; the first unparseable cell aborts the
conversion (pandas raises for the whole `pd.to_datetime` call). -/
def convertColumn : List Cell → Option (List Cell)
  | [] => some []
  | c :: rest =>
    match convertCell c, convertColumn rest with
    | some c2, some r2 => some (c2 :: r2)
    | _, _ => none

/-- The dtype guard of `get_recent_data`: convert the column only
`if not pd.api.types.is_datetime64_any_dtype(df[timestamp_col])`. -/
def maybeConvert (col : List Cell) : Option (List Cell) :=
  if col.all cellIsDT then some col else convertColumn col

/-- Index of the timestamp column (labels are unique in practice; pandas
`df[col]` addresses the first matching label). -/
def tsIndex (df : DataFrame) (ts : String) : Nat :=
  df.cols.indexOf ts

/-- The timestamp column as a list of cells. -/
def tsColumnOf (df : DataFrame) (idx : Nat) : List Cell :=
  df.rows.map (fun r => r.getD idx .absent)

/-- The comparison mask `df[timestamp_col] >= cutoff_time`: true exactly
for parsed timestamps at or after the cutoff (`NaT` compares false). -/
def keepCell (cutoff : Nat) : Cell → Bool
  | .tval t => cutoff ≤ t
  | _ => false

/-- The two `ValueError` flavours of `get_recent_data`, distinguished by
their messages: the missing-column error raised up front, and the
timestamp-processing error raised from the `except` wrapper. -/
inductive FilterError : Type where
  | schemaError : FilterError
  | valueFormatError : FilterError
deriving DecidableEq, Repr

/-- `get_recent_data(df, timestamp_col, last_updated_at)`.  The first
component of the returned pair is the state of the *input* frame after
the call: the in-place assignment `df[timestamp_col] = pd.to_datetime(...)`
mutates the caller's frame whenever the column was not already temporal.
The second component is the filtered frame handed back to the caller. -/
def get_recent_data (df : DataFrame) (timestamp_col : String)
    (last_updated_at : String) : Except FilterError (DataFrame × DataFrame) :=
  if timestamp_col ∈ df.cols then
    match parseISO8601 last_updated_at with
    | none => .error .valueFormatError
    | some cutoff =>
      let idx := tsIndex df timestamp_col
      match maybeConvert (tsColumnOf df idx) with
      | none => .error .valueFormatError
      | some col2 =>
        let pairs := df.rows.zip col2
        let df2 : DataFrame := ⟨df.cols, pairs.map (fun p => p.1.set idx p.2)⟩
        let recent : DataFrame :=
          ⟨df.cols, (pairs.filter (fun p => keepCell cutoff p.2)).map (fun p => p.1.set idx p.2)⟩
        .ok (df2, recent)
  else .error .schemaError

example :
    get_recent_data ⟨["timestamp"], [[.cstr "2024-04-30T09:00:00Z"], [.cstr "2024-04-30T10:00:00Z"]]⟩
        "timestamp" "2024-04-30T10:00:00Z" =
      .ok (⟨["timestamp"], [[.tval ((parseISO8601 "2024-04-30T09:00:00Z").getD 0)],
                            [.tval ((parseISO8601 "2024-04-30T10:00:00Z").getD 0)]]⟩,
           ⟨["timestamp"], [[.tval ((parseISO8601 "2024-04-30T10:00:00Z").getD 0)]]⟩) := rfl

example : get_recent_data ⟨["other"], [[.cint 3]]⟩ "timestamp" "2024-04-30T10:00:00Z" =
    .error .schemaError := rfl

/-- One page response of the source API, as consumed by
`get_ontology_object`: the optional `data` entry and the optional
`nextPageToken`. -/
structure Page where
  data : Option JVal
  nextPageToken : Option String

/-- Is the continuation token falsy (`if not page_token: break`)?  Both a
missing token and an empty-string token stop the loop. -/
def tokenFalsy : Option String → Bool
  | none => true
  | some t => t = ""

/-- The `data` entries contributed by one page: a list `data` entry
extends the accumulator, a single item is appended, an absent `data` key
contributes nothing. -/
def extractData (p : Page) : List JVal :=
  match p.data with
  | none => []
  | some (.jarr a) => a.toList
  | some v => [v]

/-- The fetch loop of `get_ontology_object` over the sequence of page
responses the server will return to successive requests (the first
request carries no `pageToken`; each later one carries the previous
page's token).  Each page's data is accumulated, then the loop stops as
soon as the page carries no (or an empty) next-page token. -/
def get_ontology_object : List Page → List JVal
  | [] => []
  | p :: rest =>
      extractData p ++ (if tokenFalsy p.nextPageToken then [] else get_ontology_object rest)

example :
    get_ontology_object
      [⟨some (.jarr (ja [.jint 1, .jint 2])), some "t1"⟩,
       ⟨some (.jarr (ja [.jint 3, .jint 4])), some "t2"⟩,
       ⟨some (.jarr (ja [.jint 5, .jint 6])), none⟩] =
      [.jint 1, .jint 2, .jint 3, .jint 4, .jint 5, .jint 6] := rfl

/-- A Slack Block-Kit block as built by `format_insight_message`: a
header block or a mrkdwn section block, each carrying its text. -/
inductive Block : Type where
  | header : String → Block
  | section : String → Block
deriving DecidableEq, Repr

/-- The network-level outcome of one `requests.post`/`requests.get` call:
either the request itself failed (`requests.exceptions.RequestException`),
or a response arrived with a status code and a body (`none` standing for
a body `response.json()` cannot parse). -/
inductive HttpResult : Type where
  | transportError : String → HttpResult
  | response : Nat → Option JVal → HttpResult

/-- `SlackBot.post_message(text, blocks)`: the `try` block posts, raises
for a bad status, decodes JSON and checks the `ok` flag; the `except`
clause catches every `RequestException` (transport failures *and* the
`HTTPError` from `raise_for_status`), prints and returns `False`.  A
non-`RequestException`, such as the decode error from `response.json()`
or the attribute error from `.get` on a non-object body, escapes. -/
def post_message (net : HttpResult) (text : String) (blocks : List Block) :
    Except String Bool :=
  let _payload := (text, blocks)
  match net with
  | .transportError _ => .ok false
  | .response status body =>
    if 400 ≤ status then .ok false
    else
      match body with
      | none => .error "JSONDecodeError"
      | some (.jobj l) =>
        if truthy ((jlookup l "ok").getD .jnull) then .ok true else .ok false
      | some _ => .error "AttributeError"

example : post_message (.transportError "connection reset") "hi" [] = .ok false := rfl
example : post_message (.response 200 (some (.jobj (jo [("ok", .jbool true)])))) "hi" [] =
    .ok true := rfl
example : post_message (.response 200 (some (.jobj (jo [("ok", .jbool false),
    ("error", .jstr "rate_limited")])))) "hi" [] = .ok false := rfl

/-- Python slicing `s[:n]` over code points. -/
def strTake (s : String) (n : Nat) : String :=
  ⟨s.data.take n⟩

/-- `insight.get(key, default)` over a flat record rendered to strings. -/
def lookupStr (insight : List (String × String)) (key dflt : String) : String :=
  (insight.lookup key).getD dflt

/-- `SlackBot.format_insight_message(insight)`: extract the six fields
with their placeholders, truncate the title to 150 characters
(`title[:147] + "..."`), and emit the header, summary, evidence and
metadata blocks in order. -/
def format_insight_message (insight : List (String × String)) : List Block :=
  let title0 := lookupStr insight "deIdentifiedInsightSummary" "Untitled Insight"
  let insight_evidence := lookupStr insight "insightEvidence" "No evidence available"
  let sender_role := lookupStr insight "senderRole" "Unknown role"
  let org_domain := lookupStr insight "organizationDomain" "Unknown domain"
  let insight_type := lookupStr insight "insightType" "Unknown type"
  let deidentified_summary :=
    lookupStr insight "deIdentifiedInsightSummary" "No de-identified summary available"
  let title := if 150 < title0.length then strTake title0 147 ++ "..." else title0
  [Block.header title,
   Block.section ("*De-identified Summary:*\n" ++ deidentified_summary),
   Block.section ("*Evidence:*\n" ++ insight_evidence),
   Block.section ("*Type:* " ++ insight_type ++ "\n*Sender Role:* " ++ sender_role
      ++ "\n*Organization:* " ++ org_domain)]

/-- Text of the first block when it is a header block. -/
def headerText : List Block → String
  | Block.header t :: _ => t
  | _ => ""

/-- Text of the second block when it is a section block (the
de-identified summary section). -/
def summaryText : List Block → String
  | _ :: Block.section t :: _ => t
  | _ => ""

example : headerText (format_insight_message [("deIdentifiedInsightSummary", "Hello")]) =
    "Hello" := rfl
example : summaryText (format_insight_message []) =
    "*De-identified Summary:*\nNo de-identified summary available" := rfl

/-- `str()` of a cell, as Python f-strings render row values. -/
def cellToString : Cell → String
  | .cstr s => s
  | .cint n => toString n
  | .cbool true => "True"
  | .cbool false => "False"
  | .cnull => "None"
  | .tval t => toString t
  | .tnull => "NaT"
  | .absent => "nan"

/-- `insight.to_dict()` for one row, rendered to strings for the
formatter. -/
def rowStrs (cols : List String) (r : List Cell) : List (String × String) :=
  (cols.zip r).map (fun p => (p.1, cellToString p.2))

/-- The environment one poll cycle runs against: the outcome of the
fetch, the cutoff string computed from the wall clock
(`(utcnow() - timedelta(hours)).isoformat() + "Z"`), the network outcome
of the n-th in-cycle post, and the network outcome of the diagnostic
post issued by the `except` handler. -/
structure CycleEnv where
  fetchResult : Except String (List JObj)
  cutoffStr : String
  posts : Nat → HttpResult
  diagResp : HttpResult

/-- The `ValueError` message texts of `get_recent_data`. -/
def filterErrMsg : FilterError → String
  | .schemaError => "Timestamp column timestamp not found in DataFrame"
  | .valueFormatError => "Error processing timestamps"

/-- The per-insight posting loop (`for _, insight in recent.iterrows()`):
format each row, post it with its fallback text, log-and-continue on a
`False` result, and re-raise anything `post_message` itself raises. -/
def postInsights (posts : Nat → HttpResult) (cols : List String) :
    List (List Cell) → Nat → Except String Unit
  | [], _ => .ok ()
  | r :: rest, n => do
    let d := rowStrs cols r
    let _ok ← post_message (posts n)
      ("New Thread Insight: " ++ lookupStr d "deIdentifiedInsightSummary" "Untitled Insight")
      (format_insight_message d)
    postInsights posts cols rest (n + 1)

/-- The body of the `try` block of `get_and_post_recent_insights`:
fetch, build the attribute table, filter by recency, and post the
summary plus one message per insight.  Any raised exception becomes
`.error`. -/
def innerCycle (env : CycleEnv) : Except String Unit := do
  let insights ← env.fetchResult
  if insights.isEmpty then do
    let _ ← post_message (env.posts 0) "No new thread insights found in the last 24 hours." []
    return ()
  else
    let df := create_attribute_table insights
    match get_recent_data df "timestamp" env.cutoffStr with
    | .error e => .error (filterErrMsg e)
    | .ok (_, recent) =>
      if recent.rows.isEmpty || recent.cols.isEmpty then do
        let _ ← post_message (env.posts 0) "No new thread insights found in the last 24 hours." []
        return ()
      else do
        let _ ← post_message (env.posts 0)
          ("*Daily Thread Insights Update*\nFound " ++ toString recent.rows.length
            ++ " new insights in the last 24 hours.") []
        postInsights env.posts recent.cols recent.rows 1

/-- `get_and_post_recent_insights`: the whole cycle body runs inside
`try`; on any exception the `except` clause posts a best-effort
diagnostic message and prints, returning normally — unless that
diagnostic post itself raises, in which case the new exception escapes
to the caller. -/
def get_and_post (env : CycleEnv) : Except String Unit :=
  match innerCycle env with
  | .ok _ => .ok ()
  | .error e =>
    match post_message env.diagResp ("Error fetching and posting insights: " ++ e) [] with
    | .ok _ => .ok ()
    | .error m => .error m

/-- One iteration of `run_daily_bot`'s `while True`: the number of
seconds slept before the next cycle — `interval_hours * 3600` when
`get_and_post_recent_insights` returns, `300` when it raises. -/
def run_daily_bot_step (env : CycleEnv) (interval_hours : Nat) : Nat :=
  match get_and_post env with
  | .ok _ => interval_hours * 3600
  | .error _ => 300

example :
    get_and_post ⟨.error "boom", "2024-04-30T10:00:00Z", fun _ => .transportError "x",
      .response 200 (some (.jobj (jo [("ok", .jbool true)])))⟩ = .ok () := rfl

example :
    run_daily_bot_step ⟨.error "boom", "2024-04-30T10:00:00Z", fun _ => .transportError "x",
      .response 200 (some (.jobj (jo [("ok", .jbool true)])))⟩ 24 = 86400 := rfl

/-! ## Claim C1 — notifier error envelope -/

/-- Claim C1 counterexample.  The claim states that `post_message` raises
a transport error, propagated to the caller, exactly when the underlying
network call cannot complete.  In the code the `except
requests.exceptions.RequestException` clause catches that very failure
and returns `False`: at a concrete transport failure the call returns
`False` instead of raising. -/
theorem claim_c1_counterexample :
    post_message (.transportError "boom") "msg" [] = .ok false := rfl

/-- Claim C1 (amended): `post_message` returns `false` both when the
channel API answers with an application-level failure envelope (falsy
`ok` flag) and when the network call fails or the HTTP status is an
error — transport failures are caught and swallowed, never propagated —
and returns `true` exactly when a success-status response carries a
truthy `ok` flag. -/
theorem claim_c1_amended (r : HttpResult) (text : String) (blocks : List Block) :
    (∀ m, r = .transportError m → post_message r text blocks = .ok false)
    ∧ (∀ s body, r = .response s body → 400 ≤ s →
        post_message r text blocks = .ok false)
    ∧ (∀ s l, r = .response s (some (.jobj l)) → s < 400 →
        post_message r text blocks = .ok (truthy ((jlookup l "ok").getD .jnull))) := by
  refine ⟨?_, ?_, ?_⟩
  · rintro m rfl; rfl
  · rintro s body rfl h
    simp [post_message, h]
  · rintro s l rfl h
    have h' : ¬ 400 ≤ s := by omega
    by_cases hok : truthy ((jlookup l "ok").getD .jnull) = true
    · simp [post_message, h', hok]
    · simp [post_message, h', hok]

/-- Claim C1 witness: the amended statement at a transport failure, an
HTTP 500 response, and an application-level `ok: false` envelope. -/
theorem claim_c1_witness :
    post_message (.transportError "reset") "t" [] = .ok false
    ∧ post_message (.response 500 (some (.jobj (jo [("ok", .jbool true)])))) "t" [] = .ok false
    ∧ post_message (.response 200 (some (.jobj (jo [("ok", .jbool false),
        ("error", .jstr "rate_limited")])))) "t" [] = .ok false := by
  refine ⟨(claim_c1_amended _ "t" []).1 "reset" rfl,
    (claim_c1_amended _ "t" []).2.1 500 _ rfl (by omega),
    ((claim_c1_amended _ "t" []).2.2 200 _ rfl (by omega)).trans rfl⟩

/-! ## Claim C4 — pagination -/

/-- Claim C4: over any sequence of server page responses whose last page
carries no (or an empty) continuation token while every earlier page
carries one, the paginated fetch accumulates every page's `data` entries
(a list extends the accumulator, a single item is appended) and returns
the concatenation of all pages' records in page order, terminating at
the token-free page. -/
theorem claim_c4 (init : List Page) (last : Page)
    (hinit : ∀ p ∈ init, tokenFalsy p.nextPageToken = false)
    (hlast : tokenFalsy last.nextPageToken = true) :
    get_ontology_object (init ++ [last]) = ((init ++ [last]).map extractData).flatten := by
  induction init with
  | nil => simp [get_ontology_object, hlast]
  | cons p rest ih =>
    have hp := hinit p (List.mem_cons_self p rest)
    have hrest := ih (fun q hq => hinit q (List.mem_cons_of_mem p hq))
    simp [get_ontology_object, hp, hrest]

/-- Claim C4 witness: three pages of two records each, with
`nextPageToken` on pages 1–2 and none on page 3, fetch to the six
records in page order. -/
theorem claim_c4_witness :
    (∀ p ∈ [(⟨some (.jarr (ja [.jint 1, .jint 2])), some "t1"⟩ : Page),
            ⟨some (.jarr (ja [.jint 3, .jint 4])), some "t2"⟩],
        tokenFalsy p.nextPageToken = false)
    ∧ tokenFalsy (some (String.mk [])) = true
    ∧ get_ontology_object
        [⟨some (.jarr (ja [.jint 1, .jint 2])), some "t1"⟩,
         ⟨some (.jarr (ja [.jint 3, .jint 4])), some "t2"⟩,
         ⟨some (.jarr (ja [.jint 5, .jint 6])), none⟩] =
        [.jint 1, .jint 2, .jint 3, .jint 4, .jint 5, .jint 6] := by
  have hinit : ∀ p ∈ [(⟨some (.jarr (ja [.jint 1, .jint 2])), some "t1"⟩ : Page),
      ⟨some (.jarr (ja [.jint 3, .jint 4])), some "t2"⟩],
      tokenFalsy p.nextPageToken = false := by
    intro p hp
    simp only [List.mem_cons, List.not_mem_nil, or_false] at hp
    rcases hp with rfl | rfl <;> rfl
  have h := claim_c4
    [⟨some (.jarr (ja [.jint 1, .jint 2])), some "t1"⟩,
     ⟨some (.jarr (ja [.jint 3, .jint 4])), some "t2"⟩]
    ⟨some (.jarr (ja [.jint 5, .jint 6])), none⟩ hinit rfl
  exact ⟨hinit, rfl, h.trans rfl⟩

/-! ## Claim C6 — title truncation -/

/-- Claim C6: for every title strictly longer than 150 characters the
rendered header text is exactly 150 characters and is the 147-character
prefix followed by the ellipsis marker `"..."`; a title of at most 150
characters is rendered unchanged. -/
theorem claim_c6 (insight : List (String × String)) :
    (150 < (lookupStr insight "deIdentifiedInsightSummary" "Untitled Insight").length →
      (headerText (format_insight_message insight)).length = 150
      ∧ headerText (format_insight_message insight) =
          strTake (lookupStr insight "deIdentifiedInsightSummary" "Untitled Insight") 147
            ++ "...")
    ∧ ((lookupStr insight "deIdentifiedInsightSummary" "Untitled Insight").length ≤ 150 →
      headerText (format_insight_message insight) =
        lookupStr insight "deIdentifiedInsightSummary" "Untitled Insight") := by
  have hf : headerText (format_insight_message insight) =
      (if 150 < (lookupStr insight "deIdentifiedInsightSummary" "Untitled Insight").length
       then strTake (lookupStr insight "deIdentifiedInsightSummary" "Untitled Insight") 147
              ++ "..."
       else lookupStr insight "deIdentifiedInsightSummary" "Untitled Insight") := rfl
  constructor
  · intro h
    have hh := hf.trans (if_pos h)
    refine ⟨?_, hh⟩
    rw [hh, String.length_append]
    have hlen : (strTake (lookupStr insight "deIdentifiedInsightSummary" "Untitled Insight")
        147).length =
        min 147 (lookupStr insight "deIdentifiedInsightSummary" "Untitled Insight").length := by
      show ((lookupStr insight "deIdentifiedInsightSummary"
        "Untitled Insight").data.take 147).length = _
      rw [List.length_take]
      rfl
    rw [hlen]
    have h3 : ("..." : String).length = 3 := rfl
    rw [h3]
    omega
  · intro h
    have h' : ¬ 150 <
        (lookupStr insight "deIdentifiedInsightSummary" "Untitled Insight").length := by omega
    exact hf.trans (if_neg h')

/-- Claim C6 witness: a 151-character title renders as a 150-character
header, and a short title renders unchanged. -/
theorem claim_c6_witness :
    150 < (lookupStr [("deIdentifiedInsightSummary", String.mk (List.replicate 151 'a'))]
      "deIdentifiedInsightSummary" "Untitled Insight").length
    ∧ (headerText (format_insight_message
        [("deIdentifiedInsightSummary", String.mk (List.replicate 151 'a'))])).length = 150
    ∧ headerText (format_insight_message [("deIdentifiedInsightSummary", "short")]) = "short" := by
  have hlong : 150 < (lookupStr
      [("deIdentifiedInsightSummary", String.mk (List.replicate 151 'a'))]
      "deIdentifiedInsightSummary" "Untitled Insight").length := by
    show 150 < (List.replicate 151 'a').length
    rw [List.length_replicate]
    omega
  refine ⟨hlong,
    ((claim_c6 [("deIdentifiedInsightSummary", String.mk (List.replicate 151 'a'))]).1 hlong).1,
    (claim_c6 [("deIdentifiedInsightSummary", "short")]).2 (by decide)⟩

/-! ## Claim C10 — title and summary share one source field -/

/-- Claim C10: the header title and the summary section are both derived
from the `deIdentifiedInsightSummary` field — when the field is present
the summary section body is exactly the untruncated source of the
(possibly truncated) title — and a record missing the field gets the
title placeholder in the header and the summary placeholder in the
summary section. -/
theorem claim_c10 (insight : List (String × String)) :
    (∀ s, insight.lookup "deIdentifiedInsightSummary" = some s →
      headerText (format_insight_message insight) =
        (if 150 < s.length then strTake s 147 ++ "..." else s)
      ∧ summaryText (format_insight_message insight) = "*De-identified Summary:*\n" ++ s)
    ∧ (insight.lookup "deIdentifiedInsightSummary" = none →
      headerText (format_insight_message insight) = "Untitled Insight"
      ∧ summaryText (format_insight_message insight) =
          "*De-identified Summary:*\nNo de-identified summary available") := by
  have hf : headerText (format_insight_message insight) =
      (if 150 < (lookupStr insight "deIdentifiedInsightSummary" "Untitled Insight").length
       then strTake (lookupStr insight "deIdentifiedInsightSummary" "Untitled Insight") 147
              ++ "..."
       else lookupStr insight "deIdentifiedInsightSummary" "Untitled Insight") := rfl
  have hg : summaryText (format_insight_message insight) = "*De-identified Summary:*\n"
      ++ lookupStr insight "deIdentifiedInsightSummary"
          "No de-identified summary available" := rfl
  constructor
  · intro s hs
    have hl : lookupStr insight "deIdentifiedInsightSummary" "Untitled Insight" = s := by
      simp [lookupStr, hs]
    have hl2 : lookupStr insight "deIdentifiedInsightSummary"
        "No de-identified summary available" = s := by
      simp [lookupStr, hs]
    exact ⟨by rw [hf, hl], by rw [hg, hl2]⟩
  · intro hs
    have hl : lookupStr insight "deIdentifiedInsightSummary" "Untitled Insight" =
        "Untitled Insight" := by simp [lookupStr, hs]
    have hl2 : lookupStr insight "deIdentifiedInsightSummary"
        "No de-identified summary available" = "No de-identified summary available" := by
      simp [lookupStr, hs]
    constructor
    · rw [hf, hl]
      exact if_neg (by decide)
    · rw [hg, hl2]
      rfl

/-- Claim C10 witness: a record carrying the field displays it in both
the header and the summary section; a record missing it gets the two
placeholders. -/
theorem claim_c10_witness :
    headerText (format_insight_message [("deIdentifiedInsightSummary", "Hello")]) = "Hello"
    ∧ summaryText (format_insight_message [("deIdentifiedInsightSummary", "Hello")]) =
        "*De-identified Summary:*\nHello"
    ∧ headerText (format_insight_message [("other", "x")]) = "Untitled Insight"
    ∧ summaryText (format_insight_message [("other", "x")]) =
        "*De-identified Summary:*\nNo de-identified summary available" := by
  have h1 := (claim_c10 [("deIdentifiedInsightSummary", "Hello")]).1 "Hello" rfl
  have h2 := (claim_c10 [("other", "x")]).2 rfl
  exact ⟨h1.1.trans (by rfl), h1.2, h2.1, h2.2⟩

/-! ## Claim C5 — recency-filter error conditions -/

/-- A cell the conversion rejects is in particular not already of
datetime kind. -/
theorem convertCell_none_not_dt {c : Cell} (h : convertCell c = none) :
    cellIsDT c = false := by
  cases c <;> simp_all [convertCell, cellIsDT]

/-- One unconvertible cell aborts the whole column conversion. -/
theorem convertColumn_none {l : List Cell} {c : Cell} (hc : c ∈ l)
    (h : convertCell c = none) : convertColumn l = none := by
  induction l with
  | nil => cases hc
  | cons a tl ih =>
    rcases List.mem_cons.1 hc with rfl | hmem
    · simp [convertColumn, h]
    · cases ha : convertCell a <;> simp [convertColumn, ha, ih hmem]

/-- Conversion preserves the column length. -/
theorem convertColumn_length {l l2 : List Cell} (h : convertColumn l = some l2) :
    l2.length = l.length := by
  induction l generalizing l2 with
  | nil => simp [convertColumn] at h; simp [← h]
  | cons a tl ih =>
    cases ha : convertCell a with
    | none => simp [convertColumn, ha] at h
    | some c2 =>
      cases htl : convertColumn tl with
      | none => simp [convertColumn, ha, htl] at h
      | some r2 =>
        simp only [convertColumn, ha, htl] at h
        cases h
        simp [ih htl]

/-- Claim C5: the recency filter fails with the missing-column error
(`SchemaError`) whenever the timestamp column is absent, with the
timestamp-format error (`ValueFormatError`) whenever the cutoff does not
parse, and a single unparseable row aborts the whole operation with the
same format error — no partial result is ever returned. -/
theorem claim_c5 (df : DataFrame) (ts cut : String) :
    (ts ∉ df.cols → get_recent_data df ts cut = .error .schemaError)
    ∧ (ts ∈ df.cols → parseISO8601 cut = none →
        get_recent_data df ts cut = .error .valueFormatError)
    ∧ (ts ∈ df.cols →
        (∃ c ∈ tsColumnOf df (tsIndex df ts), convertCell c = none) →
        get_recent_data df ts cut = .error .valueFormatError) := by
  refine ⟨?_, ?_, ?_⟩
  · intro h
    simp [get_recent_data, h]
  · intro h hcut
    simp [get_recent_data, h, hcut]
  · rintro h ⟨c, hc, hconv⟩
    have hall : (tsColumnOf df (tsIndex df ts)).all cellIsDT = false :=
      List.all_eq_false.2 ⟨c, hc, by simp [convertCell_none_not_dt hconv]⟩
    have hmc : maybeConvert (tsColumnOf df (tsIndex df ts)) = none := by
      simp [maybeConvert, hall, convertColumn_none hc hconv]
    cases hp : parseISO8601 cut with
    | none => simp [get_recent_data, h, hp]
    | some cutoff => simp [get_recent_data, h, hp, hmc]

/-- Claim C5 witness: a frame without the column, an unparseable cutoff,
and a frame with one bad row each produce the corresponding error. -/
theorem claim_c5_witness :
    get_recent_data ⟨["other"], [[Cell.cint 1]]⟩ "timestamp" "2024-04-30T10:00:00Z" =
      .error .schemaError
    ∧ get_recent_data ⟨["timestamp"], [[Cell.cstr "2024-04-30T10:00:00Z"]]⟩ "timestamp"
        "not-a-time" = .error .valueFormatError
    ∧ get_recent_data ⟨["timestamp"], [[Cell.cstr "2024-04-30T10:00:00Z"], [Cell.cstr "bad"]]⟩
        "timestamp" "2024-04-30T10:00:00Z" = .error .valueFormatError := by
  refine ⟨(claim_c5 _ _ _).1 (by decide), (claim_c5 _ _ _).2.1 (by decide) rfl,
    (claim_c5 _ _ _).2.2 (by decide) ⟨Cell.cstr "bad", by decide, rfl⟩⟩

/-! ## Claim C2 — recency filter keeps exactly the rows at or after the cutoff -/

/-- Claim C2: when the timestamp column exists, the cutoff parses and
every column value converts, the filter succeeds and returns exactly the
rows whose (parsed) timestamp satisfies `cutoff ≤ t` — an inclusive
boundary — as an order-preserving subsequence of the (converted) table;
the kept rows are characterized by the boolean mask `keepCell`. -/
theorem claim_c2 (df : DataFrame) (ts cut : String) (cutoff : Nat) (col2 : List Cell)
    (h1 : ts ∈ df.cols)
    (h2 : parseISO8601 cut = some cutoff)
    (h3 : maybeConvert (tsColumnOf df (tsIndex df ts)) = some col2) :
    get_recent_data df ts cut =
      .ok (⟨df.cols, (df.rows.zip col2).map (fun p => p.1.set (tsIndex df ts) p.2)⟩,
           ⟨df.cols, ((df.rows.zip col2).filter (fun p => keepCell cutoff p.2)).map
              (fun p => p.1.set (tsIndex df ts) p.2)⟩)
    ∧ (((df.rows.zip col2).filter (fun p => keepCell cutoff p.2)).map
          (fun p => p.1.set (tsIndex df ts) p.2)).Sublist
        ((df.rows.zip col2).map (fun p => p.1.set (tsIndex df ts) p.2))
    ∧ (∀ t : Nat, keepCell cutoff (Cell.tval t) = decide (cutoff ≤ t))
    ∧ (∀ c, keepCell cutoff c = true → ∃ t, c = Cell.tval t ∧ cutoff ≤ t) := by
  refine ⟨by simp [get_recent_data, h1, h2, h3],
    List.Sublist.map _ (List.filter_sublist _), fun t => rfl, ?_⟩
  intro c hc
  cases c <;> simp_all [keepCell]

/-- Claim C2 witness: the boundary scenario — with cutoff
`2024-04-30T10:00:00Z`, the row stamped `09:00:00Z` is excluded and the
row stamped exactly `10:00:00Z` is included. -/
theorem claim_c2_witness :
    parseISO8601 "2024-04-30T09:00:00Z" =
      some 72761101200000000000
    ∧ parseISO8601 "2024-04-30T10:00:00Z" =
      some 72761104800000000000
    ∧ get_recent_data
        ⟨["timestamp"], [[Cell.cstr "2024-04-30T09:00:00Z"], [Cell.cstr "2024-04-30T10:00:00Z"]]⟩
        "timestamp" "2024-04-30T10:00:00Z" =
      .ok (⟨["timestamp"],
            [[Cell.tval 72761101200000000000],
             [Cell.tval 72761104800000000000]]⟩,
           ⟨["timestamp"],
            [[Cell.tval 72761104800000000000]]⟩) := by
  refine ⟨rfl, rfl, ?_⟩
  have h := (claim_c2
    ⟨["timestamp"], [[Cell.cstr "2024-04-30T09:00:00Z"], [Cell.cstr "2024-04-30T10:00:00Z"]]⟩
    "timestamp" "2024-04-30T10:00:00Z"
    72761104800000000000
    [Cell.tval 72761101200000000000,
     Cell.tval 72761104800000000000]
    (by decide) rfl rfl).1
  exact h.trans rfl

/-! ## Claim C7 — the filter mutates its input's timestamp column -/

/-- Claim C7 counterexample.  The claim states the input table is left
entirely unchanged, including the timestamp column's values and type.
In the code, `df[timestamp_col] = pd.to_datetime(df[timestamp_col], ...)`
converts the caller's column in place whenever it is not already
temporal: after the call the input frame holds parsed timestamps where
it held strings. -/
theorem claim_c7_counterexample :
    get_recent_data ⟨["timestamp"], [[Cell.cstr "2024-04-30T10:00:00Z"]]⟩ "timestamp"
        "2024-04-30T10:00:00Z" =
      .ok (⟨["timestamp"],
            [[Cell.tval 72761104800000000000]]⟩,
           ⟨["timestamp"],
            [[Cell.tval 72761104800000000000]]⟩)
    ∧ (⟨["timestamp"],
          [[Cell.tval 72761104800000000000]]⟩ :
        DataFrame) ≠
      ⟨["timestamp"], [[Cell.cstr "2024-04-30T10:00:00Z"]]⟩ :=
  ⟨rfl, by decide⟩

/-- Setting an index to the value already there is the identity. -/
theorem set_getD_self {α : Type} (l : List α) (n : Nat) (d : α) :
    l.set n (l.getD n d) = l := by
  induction l generalizing n with
  | nil => rfl
  | cons a tl ih =>
    cases n with
    | zero => simp [List.getD]
    | succ m => simpa [List.getD] using ih m

/-- `maybeConvert` preserves the column length. -/
theorem maybeConvert_length {l l2 : List Cell} (h : maybeConvert l = some l2) :
    l2.length = l.length := by
  unfold maybeConvert at h
  by_cases hall : l.all cellIsDT
  · simp [hall] at h
    simp [← h]
  · simp [hall] at h
    exact convertColumn_length h

/-- Zipping a list with its own image and writing the image back at a
fixed index is a plain map. -/
theorem zip_self_map (l : List (List Cell)) (g : List Cell → Cell) (idx : Nat) :
    ((l.zip (l.map g)).map (fun p => p.1.set idx p.2)) =
      l.map (fun r => r.set idx (g r)) := by
  induction l with
  | nil => rfl
  | cons a tl ih => simp [ih]

/-- Row `i` of the written-back table is row `i` of the input with the
converted cell written at the timestamp index. -/
theorem zip_map_getD (l : List (List Cell)) (c : List Cell) (idx i : Nat)
    (hlen : c.length = l.length) (hi : i < l.length) :
    ((l.zip c).map (fun p => p.1.set idx p.2)).getD i [] =
      (l.getD i []).set idx (c.getD i .absent) := by
  induction l generalizing c i with
  | nil => simp at hi
  | cons a tl ih =>
    cases c with
    | nil => simp at hlen
    | cons b ctl =>
      cases i with
      | zero => simp
      | succ m =>
        have hm : m < tl.length := by simpa using hi
        have hl : ctl.length = tl.length := by simpa using hlen
        simpa using ih ctl m hl hm

/-- Writing at one index leaves every other index unchanged. -/
theorem getD_set_ne {α : Type} (l : List α) (n m : Nat) (a d : α) (h : n ≠ m) :
    (l.set n a).getD m d = l.getD m d := by
  rw [List.getD_eq_getElem?_getD, List.getD_eq_getElem?_getD, List.getElem?_set_ne h]

/-- Claim C7 (amended): the filter does not add, drop or reorder the
input's rows and touches no column other than the timestamp one, but it
does replace the timestamp column's cells with their parsed temporal
values in place (the counterexample exhibits the change); when the
column is already temporal the input frame is returned entirely
unchanged. -/
theorem claim_c7_amended (df : DataFrame) (ts cut : String) (df2 recent : DataFrame)
    (h : get_recent_data df ts cut = .ok (df2, recent)) :
    df2.cols = df.cols
    ∧ df2.rows.length = df.rows.length
    ∧ (∀ i, i < df.rows.length → ∀ j d, j ≠ tsIndex df ts →
        (df2.rows.getD i []).getD j d = (df.rows.getD i []).getD j d)
    ∧ ((tsColumnOf df (tsIndex df ts)).all cellIsDT = true → df2 = df) := by
  by_cases hmem : ts ∈ df.cols
  case neg => simp [get_recent_data, hmem] at h
  cases hp : parseISO8601 cut with
  | none => simp [get_recent_data, hmem, hp] at h
  | some cutoff =>
  cases hmc : maybeConvert (tsColumnOf df (tsIndex df ts)) with
  | none => simp [get_recent_data, hmem, hp, hmc] at h
  | some col2 =>
  have hok : get_recent_data df ts cut =
      .ok (⟨df.cols, (df.rows.zip col2).map (fun p => p.1.set (tsIndex df ts) p.2)⟩,
           ⟨df.cols, ((df.rows.zip col2).filter (fun p => keepCell cutoff p.2)).map
              (fun p => p.1.set (tsIndex df ts) p.2)⟩) := by
    simp [get_recent_data, hmem, hp, hmc]
  rw [hok] at h
  have hdf2 : df2 = ⟨df.cols, (df.rows.zip col2).map (fun p => p.1.set (tsIndex df ts) p.2)⟩ := by
    cases h
    rfl
  have hlen : col2.length = df.rows.length := by
    have := maybeConvert_length hmc
    simpa [tsColumnOf] using this
  subst hdf2
  refine ⟨rfl, ?_, ?_, ?_⟩
  · simp [List.length_zip, hlen]
  · intro i hi j d hj
    rw [zip_map_getD df.rows col2 (tsIndex df ts) i hlen hi]
    exact getD_set_ne _ _ _ _ _ (fun hc => hj hc.symm)
  · intro hall
    have hcol2 : col2 = tsColumnOf df (tsIndex df ts) := by
      unfold maybeConvert at hmc
      rw [if_pos hall] at hmc
      cases hmc
      rfl
    subst hcol2
    have hrows : ((df.rows.zip (tsColumnOf df (tsIndex df ts))).map
        (fun p => p.1.set (tsIndex df ts) p.2)) = df.rows := by
      show ((df.rows.zip (df.rows.map (fun r => r.getD (tsIndex df ts) .absent))).map
        (fun p => p.1.set (tsIndex df ts) p.2)) = df.rows
      rw [zip_self_map]
      have : ∀ r ∈ df.rows,
          r.set (tsIndex df ts) (r.getD (tsIndex df ts) .absent) = r := by
        intro r _
        exact set_getD_self r _ _
      rw [List.map_congr_left this]
      simp
    rw [hrows]

/-- Claim C7 witness: the amended statement applied to a successful
call on a one-row frame with a string timestamp — columns and row count
of the post-call input frame are preserved. -/
theorem claim_c7_witness :
    (⟨["timestamp"],
       [[Cell.tval 72761104800000000000]]⟩ :
      DataFrame).cols =
      (⟨["timestamp"], [[Cell.cstr "2024-04-30T10:00:00Z"]]⟩ : DataFrame).cols
    ∧ (⟨["timestamp"],
        [[Cell.tval 72761104800000000000]]⟩ :
        DataFrame).rows.length =
      (⟨["timestamp"], [[Cell.cstr "2024-04-30T10:00:00Z"]]⟩ : DataFrame).rows.length := by
  have h := claim_c7_amended
    ⟨["timestamp"], [[Cell.cstr "2024-04-30T10:00:00Z"]]⟩ "timestamp" "2024-04-30T10:00:00Z"
    ⟨["timestamp"],
      [[Cell.tval 72761104800000000000]]⟩
    ⟨["timestamp"],
      [[Cell.tval 72761104800000000000]]⟩
    rfl
  exact ⟨h.1, h.2.1⟩

/-! ## Claim C8 — poll-loop failure handling and retry delay -/

/-- Claim C8 counterexample.  The claim states that after any exception
in a cycle the loop waits the shortened retry delay (300 seconds) rather
than the full interval.  In the code the cycle's `try/except` catches
the exception, posts the diagnostic and returns normally, so
`run_daily_bot` reaches the ordinary `time.sleep(interval_hours * 3600)`:
with a failing fetch and a healthy channel the loop sleeps the full
86400 seconds, not 300. -/
theorem claim_c8_counterexample :
    run_daily_bot_step
      ⟨.error "boom", "2024-04-30T10:00:00Z", fun _ => .transportError "x",
        .response 200 (some (.jobj (jo [("ok", .jbool true)])))⟩ 24 = 86400
    ∧ (86400 : Nat) ≠ 300 :=
  ⟨rfl, by decide⟩

/-- Claim C8 (amended): when the cycle body raises, the handler posts
the best-effort diagnostic message; if that post returns (even `false`)
the cycle ends normally and the loop sleeps the *full*
`interval_hours * 3600` — the shortened 300-second delay is reached only
when the diagnostic post itself raises, re-raising out of the handler.
Any fetch failure does reach the handler. -/
theorem claim_c8_amended (env : CycleEnv) (ih : Nat) (e : String)
    (h : innerCycle env = .error e) :
    (∀ b, post_message env.diagResp ("Error fetching and posting insights: " ++ e) [] = .ok b →
      get_and_post env = .ok () ∧ run_daily_bot_step env ih = ih * 3600)
    ∧ (∀ m, post_message env.diagResp ("Error fetching and posting insights: " ++ e) [] =
        .error m →
      get_and_post env = .error m ∧ run_daily_bot_step env ih = 300)
    ∧ (∀ e2, env.fetchResult = .error e2 → innerCycle env = .error e2) := by
  refine ⟨?_, ?_, ?_⟩
  · intro b hb
    have hg : get_and_post env = .ok () := by
      simp [get_and_post, h, hb]
    exact ⟨hg, by simp [run_daily_bot_step, hg]⟩
  · intro m hm
    have hg : get_and_post env = .error m := by
      simp [get_and_post, h, hm]
    exact ⟨hg, by simp [run_daily_bot_step, hg]⟩
  · intro e2 he2
    unfold innerCycle
    rw [he2]
    rfl

/-- Claim C8 witness: a failing fetch with a healthy channel — the
diagnostic post succeeds, the cycle returns normally, and the loop
sleeps the full 24-hour interval. -/
theorem claim_c8_witness :
    innerCycle ⟨.error "boom", "x", fun _ => .transportError "x",
        .response 200 (some (.jobj (jo [("ok", .jbool true)])))⟩ = .error "boom"
    ∧ get_and_post ⟨.error "boom", "x", fun _ => .transportError "x",
        .response 200 (some (.jobj (jo [("ok", .jbool true)])))⟩ = .ok ()
    ∧ run_daily_bot_step ⟨.error "boom", "x", fun _ => .transportError "x",
        .response 200 (some (.jobj (jo [("ok", .jbool true)])))⟩ 24 = 24 * 3600 := by
  have h := (claim_c8_amended ⟨.error "boom", "x", fun _ => .transportError "x",
    .response 200 (some (.jobj (jo [("ok", .jbool true)])))⟩ 24 "boom" rfl).1 true rfl
  exact ⟨rfl, h.1, h.2⟩

/-! ## Claim C3 — column collision on flattening -/

/-- Claim C3 counterexample.  The claim states that two different nested
paths sharing a terminal key name collide and the later value silently
overwrites the earlier one, leaving exactly one column.  In the code the
full dotted paths `a_x` and `b_x` survive `flatten_json` distinct; the
rename in `create_attribute_table` then produces *duplicate* column
labels, and pandas keeps both columns with both values — the label `x`
names two columns, not one. -/
theorem claim_c3_counterexample :
    create_attribute_table
      [jo [("a", .jobj (jo [("x", .jint 1)])), ("b", .jobj (jo [("x", .jint 2)]))],
       jo [("a", .jobj (jo [("x", .jint 1)])), ("b", .jobj (jo [("x", .jint 2)]))]] =
      ⟨["x", "x"], [[.cint 1, .cint 2], [.cint 1, .cint 2]]⟩
    ∧ (create_attribute_table
      [jo [("a", .jobj (jo [("x", .jint 1)])), ("b", .jobj (jo [("x", .jint 2)]))],
       jo [("a", .jobj (jo [("x", .jint 1)])), ("b", .jobj (jo [("x", .jint 2)]))]]).cols.count
        "x" = 2 :=
  ⟨rfl, by decide⟩

/-- Claim C3 (amended): the silent later-value overwrite does happen,
but inside `flatten_json`, when two keys at the same nesting level clean
to the same name (their paths agree after prefix stripping): the flat
record then holds exactly one entry carrying the later value.  Distinct
surviving paths that merely share a terminal segment instead become
duplicate column labels in the attribute table, with both values
retained. -/
theorem claim_c3_amended (k1 k2 : String) (v1 v2 : Int)
    (h : cleanKey k1 = cleanKey k2) :
    flatten_json (JObj.cons k1 (.jint v1) (JObj.cons k2 (.jint v2) JObj.nil)) =
      [(cleanKey k1, Cell.cint v2)] := by
  simp [flatten_json, flattenObj, flattenVal, mkKey, dinsert, h]

/-- Claim C3 witness: the keys `a_x` and `b_x` clean to the same name
`x`; flattening a record holding both yields the single entry with the
later value `2`. -/
theorem claim_c3_witness :
    cleanKey "a_x" = cleanKey "b_x"
    ∧ flatten_json (JObj.cons "a_x" (.jint 1) (JObj.cons "b_x" (.jint 2) JObj.nil)) =
        [("x", Cell.cint 2)] := by
  refine ⟨rfl, (claim_c3_amended "a_x" "b_x" 1 2 rfl).trans ?_⟩
  rfl

/-! ## Claim C9 — flattening totality and leaf preservation -/

mutual

/-- Characterization written from the spec (for the refinement claim C9):
the terminal leaves of one value under the built key `nk`, each scalar
leaf under its full cleaned path, each sequence as a single cell holding
its JSON text.  Compared below against the source-translated
`flatten_json`. -/
def specLeavesVal (nk : String) : JVal → List (String × Cell)
  | .jobj sub => specLeavesObj sub nk
  | .jarr a => [(nk, .cstr (jsonDumps (.jarr a)))]
  | .jnull => [(nk, .cnull)]
  | .jbool b => [(nk, .cbool b)]
  | .jint n => [(nk, .cint n)]
  | .jstr s => [(nk, .cstr s)]

/-- Characterization written from the spec: all terminal leaves of an
object under an accumulated parent path, in field order. -/
def specLeavesObj : JObj → String → List (String × Cell)
  | .nil, _ => []
  | .cons k v tl, parent => specLeavesVal (mkKey parent k) v ++ specLeavesObj tl parent

end

/-- Inserting a key absent from a dict appends it. -/
theorem dinsert_fresh (m : List (String × Cell)) (k : String) (v : Cell)
    (h : k ∉ keysOf m) : dinsert m k v = m ++ [(k, v)] := by
  induction m with
  | nil => rfl
  | cons p tl ih =>
    have hk : p.1 ≠ k := by
      intro he
      exact h (by simp [keysOf, he])
    have htl : k ∉ keysOf tl := by
      intro he
      exact h (by simp [keysOf]; exact Or.inr (by simpa [keysOf] using he))
    cases p with
    | mk k' v' =>
      simp only [dinsert, if_neg hk]
      rw [ih htl]
      simp

/-- Updating a dict with bindings whose keys are fresh and mutually
distinct appends them in order. -/
theorem dupdate_fresh (L : List (String × Cell)) : ∀ (m : List (String × Cell)),
    (keysOf L).Nodup → (∀ k ∈ keysOf L, k ∉ keysOf m) →
    dupdate m L = m ++ L := by
  induction L with
  | nil =>
    intro m _ _
    simp [dupdate]
  | cons p L' ih =>
    rintro m hnd hdis
    obtain ⟨k, v⟩ := p
    have h0 : keysOf ((k, v) :: L') = k :: keysOf L' := rfl
    rw [h0] at hnd
    have hknot : k ∉ keysOf L' := (List.nodup_cons.1 hnd).1
    have hnd' : (keysOf L').Nodup := (List.nodup_cons.1 hnd).2
    have hk : k ∉ keysOf m := hdis k (by rw [h0]; exact List.mem_cons_self _ _)
    have hdis' : ∀ k' ∈ keysOf L', k' ∉ keysOf (m ++ [(k, v)]) := by
      intro k' hk'
      have hne : k' ≠ k := fun he => hknot (he ▸ hk')
      have hm : k' ∉ keysOf m := hdis k' (by rw [h0]; exact List.mem_cons_of_mem _ hk')
      simp only [keysOf, List.map_append]
      intro hmem
      rcases List.mem_append.1 hmem with hin | hin
      · exact hm hin
      · simp at hin
        exact hne hin
    have step : dupdate m ((k, v) :: L') = dupdate (dinsert m k v) L' := rfl
    rw [step, dinsert_fresh m k v hk, ih (m ++ [(k, v)]) hnd' hdis']
    simp

mutual

/-- The flattening of one value, started on an accumulated dict whose
keys are disjoint from the value's (collision-free) leaf paths, appends
exactly the leaves of the value. -/
theorem flattenVal_spec : ∀ (v : JVal) (nk : String) (items : List (String × Cell)),
    (∀ k ∈ keysOf (specLeavesVal nk v), k ∉ keysOf items) →
    (keysOf (specLeavesVal nk v)).Nodup →
    flattenVal nk items v = items ++ specLeavesVal nk v
  | .jnull, nk, items, hdis, _ => by
    have h : nk ∉ keysOf items := hdis nk (by simp [specLeavesVal, keysOf])
    simpa [flattenVal, specLeavesVal] using dinsert_fresh items nk .cnull h
  | .jbool b, nk, items, hdis, _ => by
    have h : nk ∉ keysOf items := hdis nk (by simp [specLeavesVal, keysOf])
    simpa [flattenVal, specLeavesVal] using dinsert_fresh items nk (.cbool b) h
  | .jint n, nk, items, hdis, _ => by
    have h : nk ∉ keysOf items := hdis nk (by simp [specLeavesVal, keysOf])
    simpa [flattenVal, specLeavesVal] using dinsert_fresh items nk (.cint n) h
  | .jstr s, nk, items, hdis, _ => by
    have h : nk ∉ keysOf items := hdis nk (by simp [specLeavesVal, keysOf])
    simpa [flattenVal, specLeavesVal] using dinsert_fresh items nk (.cstr s) h
  | .jarr a, nk, items, hdis, _ => by
    have h : nk ∉ keysOf items := hdis nk (by simp [specLeavesVal, keysOf])
    simpa [flattenVal, specLeavesVal] using
      dinsert_fresh items nk (.cstr (jsonDumps (.jarr a))) h
  | .jobj sub, nk, items, hdis, hnd => by
    have hsub : flattenObj sub nk [] = [] ++ specLeavesObj sub nk :=
      flattenObj_spec sub nk [] (by simp [keysOf]) (by simpa [specLeavesVal] using hnd)
    show dupdate items (flattenObj sub nk []) = items ++ specLeavesVal nk (.jobj sub)
    rw [hsub, List.nil_append]
    exact dupdate_fresh _ _ (by simpa [specLeavesVal] using hnd)
      (by simpa [specLeavesVal] using hdis)

/-- The flattening loop over an object's fields, started on an
accumulated dict whose keys are disjoint from the object's
(collision-free) leaf paths, appends exactly the object's leaves. -/
theorem flattenObj_spec : ∀ (o : JObj) (parent : String) (items : List (String × Cell)),
    (∀ k ∈ keysOf (specLeavesObj o parent), k ∉ keysOf items) →
    (keysOf (specLeavesObj o parent)).Nodup →
    flattenObj o parent items = items ++ specLeavesObj o parent
  | .nil, _, items, _, _ => by simp [flattenObj, specLeavesObj]
  | .cons k v tl, parent, items, hdis, hnd => by
    have hsplit : keysOf (specLeavesVal (mkKey parent k) v ++ specLeavesObj tl parent) =
        keysOf (specLeavesVal (mkKey parent k) v) ++ keysOf (specLeavesObj tl parent) := by
      simp [keysOf]
    have hnd' : (keysOf (specLeavesVal (mkKey parent k) v)
        ++ keysOf (specLeavesObj tl parent)).Nodup := by
      rw [← hsplit]
      simpa [specLeavesObj] using hnd
    rcases List.nodup_append.1 hnd' with ⟨h1, h2, hdisj⟩
    have hdis' : ∀ k' ∈ keysOf (specLeavesVal (mkKey parent k) v) ++
        keysOf (specLeavesObj tl parent), k' ∉ keysOf items := by
      intro k' hk'
      exact hdis k' (by simpa [specLeavesObj, keysOf] using hk')
    have hv : flattenVal (mkKey parent k) items v =
        items ++ specLeavesVal (mkKey parent k) v :=
      flattenVal_spec v (mkKey parent k) items
        (fun k' hk' => hdis' k' (List.mem_append_left _ hk')) h1
    have ho : flattenObj tl parent (items ++ specLeavesVal (mkKey parent k) v) =
        (items ++ specLeavesVal (mkKey parent k) v) ++ specLeavesObj tl parent :=
      flattenObj_spec tl parent (items ++ specLeavesVal (mkKey parent k) v)
        (by
          intro k' hk'
          simp only [keysOf, List.map_append]
          intro hmem
          rcases List.mem_append.1 hmem with hin | hin
          · exact hdis' k' (List.mem_append_right _ hk') hin
          · exact hdisj hin hk')
        h2
    calc flattenObj (JObj.cons k v tl) parent items
        = flattenObj tl parent (flattenVal (mkKey parent k) items v) := rfl
      _ = flattenObj tl parent (items ++ specLeavesVal (mkKey parent k) v) := by rw [hv]
      _ = (items ++ specLeavesVal (mkKey parent k) v) ++ specLeavesObj tl parent := ho
      _ = items ++ (specLeavesVal (mkKey parent k) v ++ specLeavesObj tl parent) := by
            rw [List.append_assoc]
      _ = items ++ specLeavesObj (JObj.cons k v tl) parent := rfl

end

/-- Claim C9 counterexample.  The claim states that every terminal value
of a nested record appears in the flat record under some deduplicated
short name.  When two cleaned key paths collide, the later dict
assignment silently overwrites the earlier: in the record
`p.a_x = 1, p.b_x = 2` both leaves clean to the path `p_x`, the flat
record holds the single later value `2`, and the terminal value `1`
appears nowhere. -/
theorem claim_c9_counterexample :
    flatten_json (jo [("p", .jobj (jo [("a_x", .jint 1), ("b_x", .jint 2)]))]) =
      [("p_x", Cell.cint 2)]
    ∧ (flatten_json (jo [("p", .jobj (jo [("a_x", .jint 1), ("b_x", .jint 2)]))])).all
        (fun q => q.2 != Cell.cint 1) = true :=
  ⟨rfl, by decide⟩

/-- Claim C9 (amended): flattening is total (a total function of the
record), and provided no two cleaned leaf paths of the record collide,
the flat record is exactly the record's leaf list — every terminal value
appears under its full cleaned path name and every sequence value
appears as a single cell holding its JSON text serialization (the
`specLeaves` characterization); under a collision the later value
silently overwrites the earlier, which the counterexample exhibits. -/
theorem claim_c9_amended (j : JObj)
    (hnd : (keysOf (specLeavesObj j "")).Nodup) :
    flatten_json j = specLeavesObj j ""
    ∧ ∀ p ∈ specLeavesObj j "", p ∈ flatten_json j := by
  have h := flattenObj_spec j "" [] (by simp [keysOf]) hnd
  have h1 : flatten_json j = specLeavesObj j "" := by
    simpa [flatten_json] using h
  exact ⟨h1, fun p hp => by rw [h1]; exact hp⟩

/-- Claim C9 witness: a nested record with a scalar leaf, a sequence
leaf and a top-level scalar flattens to exactly its leaf list, with the
sequence serialized to its JSON text. -/
theorem claim_c9_witness :
    (keysOf (specLeavesObj (jo [("a", .jobj (jo [("x", .jint 1)])),
        ("b", .jarr (ja [.jint 1, .jint 2])), ("c", .jstr "hi")]) "")).Nodup
    ∧ flatten_json (jo [("a", .jobj (jo [("x", .jint 1)])),
        ("b", .jarr (ja [.jint 1, .jint 2])), ("c", .jstr "hi")]) =
      [("a_x", Cell.cint 1), ("b", Cell.cstr "[1, 2]"), ("c", Cell.cstr "hi")] := by
  have hnd : (keysOf (specLeavesObj (jo [("a", .jobj (jo [("x", .jint 1)])),
      ("b", .jarr (ja [.jint 1, .jint 2])), ("c", .jstr "hi")]) "")).Nodup := by
    show (["a_x", "b", "c"] : List String).Nodup
    decide
  refine ⟨hnd, ((claim_c9_amended _ hnd).1).trans ?_⟩
  rfl

end SlackBotSpec
